import Mathlib

/-!
Verification of the OpenHands MCP session manager
(`src/openhands_mcp_server/session_manager.py`).

The Python code is shallowly embedded: every method of `SessionManager`
becomes a pure Lean function.  External effects are passed in explicitly:
 * the docker runtime is a function `String → Option String` mapping a
   container id to its status (`none` models `containers.get`/`reload`
   raising an exception);
 * git operations are flags or oracle functions describing the outcome of
   the corresponding external call;
 * the filesystem is explicit data (directory lists, file contents).
Dictionaries (`self.sessions`, result dicts) become association lists and
structures; an `Option` field models a dict key that is absent on some
code paths.
-/

namespace OpenHandsMCP

/-- One tracked coding-task container
(an element of `SessionInfo.coding_task_containers`). -/
structure TaskHandle where
  id : String
  name : String
  created_at : Nat
  status : String
  task_description : String
deriving Repr, DecidableEq

/-- `SessionInfo` (pydantic model in `session_manager.py`).  Paths and
timestamps are modelled as `String`/`Nat`. -/
structure SessionInfo where
  session_id : String
  repo_url : String
  branch : String
  workspace_path : String
  coding_task_containers : List TaskHandle := []
  created_at : Nat
  status : String := "active"
  container_id : Option String := none
deriving Repr, DecidableEq

/-- The docker statuses the dispatcher treats as live:
`container.status in ("created", "running", "paused")`. -/
def liveStatuses : List String := ["created", "running", "paused"]

/-- The garbage-collection pass at the top of `start_coding_session`:
keep a tracked container only when the runtime lookup succeeds and the
status is live; a lookup exception (`none`) drops the entry. -/
def gcContainers (lookup : String → Option String) (cs : List TaskHandle) :
    List TaskHandle :=
  cs.filter fun c =>
    match lookup c.id with
    | some s => liveStatuses.contains s
    | none => false

/-- Result of `start_coding_session`: the returned dict plus the session's
tracked-container list after the call.  `launched = true` iff
`containers.run` succeeded. -/
structure DispatchResult where
  isError : Bool
  error : Option String
  container : Option String
  launched : Bool
  containers : List TaskHandle
deriving Repr, DecidableEq

/-- `SessionManager.start_coding_session` for an existing session.
`dockerAvail` models `self.docker_client` being non-`None`; `lookup` is the
runtime; `launch` is the outcome of the whole launch `try` block
(`some cid` = container started with id `cid`, `none` = an exception);
`cname`/`now`/`task` are the generated container name, the clock and the
task description. -/
def start_coding_session (dockerAvail : Bool) (lookup : String → Option String)
    (maxTasks : Nat) (launch : Option String) (cname : String) (now : Nat)
    (task : String) (containers : List TaskHandle) : DispatchResult :=
  -- "Remove finished containers from tracking" (only with a docker client)
  let cs1 := if dockerAvail then gcContainers lookup containers else containers
  if maxTasks ≤ cs1.length then
    { isError := true
      error := some ("Max coding tasks (" ++ toString maxTasks ++
        ") already running for this session.")
      container := none, launched := false, containers := cs1 }
  else if !dockerAvail then
    { isError := true, error := some "Docker client not available"
      container := none, launched := false, containers := cs1 }
  else
    match launch with
    | some cid =>
      { isError := false, error := none, container := some cid
        launched := true
        containers := cs1 ++
          [{ id := cid, name := cname, created_at := now, status := "created"
             task_description := task }] }
    | none =>
      { isError := true, error := some "Failed to start coding task container"
        container := none, launched := false, containers := cs1 }

/-- Support for the C1 witness: a runtime in which every container is
running. -/
def wLookupC1 : String → Option String := fun _ => some "running"

/-- Support for the C1 witness: one dispatch step with cap 3 against
`wLookupC1`, launching a container whose id is `cid`. -/
def wDispatchC1 (cs : List TaskHandle) (cid : String) : DispatchResult :=
  start_coding_session true wLookupC1 3 (some cid) cid 0 "t" cs

/-- Support for the C1 witness: the tracked list after three successful
dispatches with cap 3 and no completions. -/
def wCs3C1 : List TaskHandle :=
  (wDispatchC1 (wDispatchC1 (wDispatchC1 [] "c1").containers "c2").containers
    "c3").containers

/-- One element of the `tasks` list returned by `get_coding_task_status`.
`errorKey = none` models the `error` key being absent from the dict. -/
structure TaskStatusEntry where
  id : String
  name : String
  status : String
  created_at : Nat
  task_description : String
  logs : String
  errorKey : Option String
deriving Repr, DecidableEq

/-- The dict returned by `get_coding_task_status`. -/
structure StatusOutcome where
  isError : Bool
  error : Option String
  tasks : List TaskStatusEntry
deriving Repr, DecidableEq

/-- The per-container body of the loop in `get_coding_task_status`:
`query` is `containers.get` + `reload` + `.status` (`none` = exception),
`logsOf` is `container.logs(...)` (`none` = exception, giving `""`). -/
def statusEntry (query : String → Option String) (logsOf : String → Option String)
    (c : TaskHandle) : TaskStatusEntry :=
  match query c.id with
  | some s =>
    { id := c.id, name := c.name, status := s, created_at := c.created_at
      task_description := c.task_description
      logs := (logsOf c.id).getD "", errorKey := none }
  | none =>
    { id := c.id, name := c.name, status := "unknown", created_at := c.created_at
      task_description := c.task_description, logs := ""
      errorKey := some "lookup failed" }

/-- `SessionManager.get_coding_task_status` for an existing session. -/
def get_coding_task_status (dockerAvail : Bool)
    (query : String → Option String) (logsOf : String → Option String)
    (containers : List TaskHandle) : StatusOutcome :=
  if !dockerAvail then
    { isError := true, error := some "Docker client not available", tasks := [] }
  else
    { isError := false, error := none
      tasks := containers.map (statusEntry query logsOf) }

/-- One element of the `results` list returned by `cleanup_coding_tasks`. -/
structure CleanupEntry where
  id : String
  status : String
  errorKey : Option String
deriving Repr, DecidableEq

/-- The dict returned by `cleanup_coding_tasks`, plus the session's tracked
list after the call. -/
structure CleanupOutcome where
  isError : Bool
  error : Option String
  results : List CleanupEntry
  containers : List TaskHandle
deriving Repr, DecidableEq

/-- `SessionManager.cleanup_coding_tasks` for an existing session.
`stopRemove c` is the outcome of `containers.get(c)` + `stop()` +
`remove()`: `none` = success, `some e` = an exception with message `e`. -/
def cleanup_coding_tasks (dockerAvail : Bool)
    (stopRemove : String → Option String) (containers : List TaskHandle) :
    CleanupOutcome :=
  if !dockerAvail then
    { isError := true, error := some "Docker client not available"
      results := [], containers := containers }
  else
    { isError := false, error := none
      results := containers.map fun c =>
        match stopRemove c.id with
        | none => { id := c.id, status := "removed", errorKey := none }
        | some e => { id := c.id, status := "error", errorKey := some e }
      containers := [] }

/-- Support for the C8 witness: a runtime where container `a` is running
and every other lookup raises. -/
def wQueryC8 : String → Option String :=
  fun i => if i = "a" then some "running" else none

/-- Support for C8/C5 witnesses: two tracked containers `a` and `b`. -/
def wCsC8 : List TaskHandle :=
  [{ id := "a", name := "na", created_at := 0, status := "created"
     task_description := "ta" },
   { id := "b", name := "nb", created_at := 1, status := "created"
     task_description := "tb" }]

/-- Support for the C5 witness: stopping container `b` fails. -/
def wStopC5 : String → Option String :=
  fun i => if i = "b" then some "boom" else none

/-- `self.sessions[k] = v` on the registry dict, modelled on an association
list: replace the entry with key `k` in place if present, else append. -/
def insertSession (m : List (String × SessionInfo)) (k : String)
    (v : SessionInfo) : List (String × SessionInfo) :=
  if m.any (fun p => p.1 == k) then
    m.map (fun p => if p.1 == k then (k, v) else p)
  else m ++ [(k, v)]

/-- `self.sessions.get(k)` on the registry dict. -/
def lookupSession (m : List (String × SessionInfo)) (k : String) :
    Option SessionInfo :=
  (m.find? (fun p => p.1 == k)).map (fun p => p.2)

/-- `del self.sessions[k]` on the registry dict. -/
def eraseSession (m : List (String × SessionInfo)) (k : String) :
    List (String × SessionInfo) :=
  m.filter (fun p => !(p.1 == k))

/-- The registry keys are distinct (always true of a Python dict). -/
def keysNodup (m : List (String × SessionInfo)) : Prop :=
  (m.map (fun p => p.1)).Nodup

/-- Number of registry entries under key `k`. -/
def countKey (m : List (String × SessionInfo)) (k : String) : Nat :=
  (m.filter (fun p => p.1 == k)).length

/-- The `SessionInfo` built by `import_existing_session` from git state:
fresh record, default (empty) `coding_task_containers`, `created_at` from
the directory's mtime. -/
def mkImportedInfo (n branch url : String) (t : Nat) : SessionInfo :=
  { session_id := n, repo_url := url, branch := branch, workspace_path := n
    created_at := t }

/-- `SessionManager.import_existing_session`.  `fsIsDir sid` models
`session_path.exists() and session_path.is_dir()`; `inspect sid` models
`git.Repo` + `active_branch.name` + `next(remote().urls)` returning
`(branch, repo_url)`, with `none` = any of them raising (logged, skipped);
`mtime sid` models `session_path.stat().st_mtime`. -/
def import_existing_session (fsIsDir : String → Bool)
    (inspect : String → Option (String × String)) (mtime : String → Nat)
    (sessions : List (String × SessionInfo)) (sid : String) :
    List (String × SessionInfo) :=
  if !fsIsDir sid then sessions
  else
    match inspect sid with
    | none => sessions
    | some bu =>
      insertSession sessions sid (mkImportedInfo sid bu.1 bu.2 (mtime sid))

/-- One entry of `self.sessions_dir.iterdir()`. -/
structure DirEntry where
  name : String
  isDir : Bool
deriving Repr, DecidableEq

/-- `SessionManager._import_all_existing_sessions`: for each directory
entry, when `uuid.UUID(entry.name)` parses (`isUUID`), run
`import_existing_session`; otherwise continue. -/
def importAllExisting (fsIsDir : String → Bool)
    (inspect : String → Option (String × String)) (mtime : String → Nat)
    (isUUID : String → Bool) (entries : List DirEntry)
    (sessions : List (String × SessionInfo)) : List (String × SessionInfo) :=
  match entries with
  | [] => sessions
  | e :: rest =>
    importAllExisting fsIsDir inspect mtime isUUID rest
      (if e.isDir && isUUID e.name then
        import_existing_session fsIsDir inspect mtime sessions e.name
      else sessions)

/-- An entry is reconciled iff it is a directory, its name parses as a
UUID, and the git inspection of the workspace succeeds. -/
def passesImport (fsIsDir : String → Bool)
    (inspect : String → Option (String × String)) (isUUID : String → Bool)
    (e : DirEntry) : Bool :=
  e.isDir && isUUID e.name && fsIsDir e.name && (inspect e.name).isSome

/-- Helper for `pySplit`: walk the characters, accumulating the current
token (reversed) and splitting at whitespace runs. -/
def splitWS : List Char → List Char → List String
  | [], cur => if cur.isEmpty then [] else [String.mk cur.reverse]
  | c :: rest, cur =>
    if c.isWhitespace then
      if cur.isEmpty then splitWS rest []
      else String.mk cur.reverse :: splitWS rest []
    else splitWS rest (c :: cur)

/-- Python `str.split()` (split on whitespace runs, dropping empties). -/
def pySplit (s : String) : List String := splitWS s.data []

/-- `if command_parts[0] == "git": command_parts = command_parts[1:]`. -/
def stripGitToken (parts : List String) : List String :=
  if parts.head? = some "git" then parts.tail else parts

/-- The fixed allow-list in `execute_git_command`. -/
def allowed_commands : List String :=
  ["add", "commit", "push", "pull", "status", "checkout", "branch", "log",
   "diff"]

/-- Outcome of `getattr(repo.git, cmd)(*args)`: success with output, a
`GitCommandError` (captured stdout/stderr), or any other exception. -/
inductive GitRunOutcome where
  | ok (output : String)
  | gitError (outS errS : String)
  | exn (msg : String)
deriving Repr, DecidableEq

/-- The dict returned by `execute_git_command`.  `isErrorKey = none`
models the `isError` key being absent (the generic `except` branch builds
a dict without it). -/
structure GitReply where
  success : Bool
  isErrorKey : Option Bool
  output : String
  error : Option String
deriving Repr, DecidableEq

/-- Full outcome of `execute_git_command`: the registry afterwards, the
returned dict (`Except.error` = the uncaught `ValueError` from
`get_session`), and whether a git subcommand was actually invoked. -/
structure GitCallOutcome where
  sessions : List (String × SessionInfo)
  reply : Except String GitReply
  invokedGit : Bool
deriving Repr

/-- The dict built by the generic `except Exception` branch of
`execute_git_command`: `success=False`, no `isError` key, empty output,
`error=str(e)`. -/
def genericFailReply (msg : String) : GitReply :=
  ⟨false, none, "", some msg⟩

/-- `SessionManager.execute_git_command`.  `repoOpenOk` models
`git.Repo(workspace)` succeeding; `gitExec` is the external git client;
`fsIsDir`/`inspect`/`mtime` feed the `import_existing_session` refresh on
success.  (The `e.stdout if e.stdout else ""` empty-string fallbacks of
the `GitCommandError` branch are elided: `outS`/`errS` stand for the
captured values.) -/
def execute_git_command (repoOpenOk : Bool)
    (gitExec : String → List String → GitRunOutcome)
    (fsIsDir : String → Bool) (inspect : String → Option (String × String))
    (mtime : String → Nat) (sessions : List (String × SessionInfo))
    (sid : String) (command : String) : GitCallOutcome :=
  match lookupSession sessions sid with
  | none =>
    { sessions := sessions
      reply := .error ("Session " ++ sid ++ " not found")
      invokedGit := false }
  | some _ =>
    if !repoOpenOk then
      { sessions := sessions
        reply := .ok (genericFailReply "could not open repository")
        invokedGit := false }
    else
      let parts := stripGitToken (pySplit command)
      match parts.head? with
      | none =>
        -- `command_parts[0]` raised IndexError; generic except branch
        { sessions := sessions
          reply := .ok (genericFailReply "list index out of range")
          invokedGit := false }
      | some c =>
        if !(allowed_commands.contains c) then
          { sessions := sessions
            reply := .ok (genericFailReply ("Command " ++ c ++
              " is not allowed in this context. Allowed commands: " ++
              String.intercalate ", " allowed_commands))
            invokedGit := false }
        else
          match gitExec c parts.tail with
          | .ok out =>
            { sessions := import_existing_session fsIsDir inspect mtime
                sessions sid
              reply := .ok ⟨true, some false, out, none⟩
              invokedGit := true }
          | .gitError outS errS =>
            { sessions := sessions
              reply := .ok ⟨false, some true, outS, some errS⟩
              invokedGit := true }
          | .exn m =>
            { sessions := sessions
              reply := .ok (genericFailReply m)
              invokedGit := true }

/-- Full outcome of `create_session`: the workspace-root directory list
and registry afterwards, and session id or propagated `RuntimeError`. -/
structure CreateOutcome where
  dirs : List String
  sessions : List (String × SessionInfo)
  res : Except String String
deriving Repr

/-- `SessionManager.create_session`.  The workspace root is the list
`dirs` of directory names; `sid` is the generated UUID; `mkdirOk` models
`workspace_path.mkdir` succeeding, `cloneOk` models `git.Repo.clone_from`
succeeding, `checkoutOk` models `repo.git.checkout(branch)` not raising
`GitCommandError`, `newBranchOk` likewise for `checkout -b`, and
`activeBranch` models `repo.active_branch.name` in the final fallback
(`none` = it raises, e.g. detached HEAD, escaping to the outer handler).
On any exception the `except` block removes the workspace directory if it
exists and raises `RuntimeError`. -/
def create_session (dirs : List String)
    (sessions : List (String × SessionInfo)) (sid repoUrl branch : String)
    (mkdirOk cloneOk checkoutOk newBranchOk : Bool)
    (activeBranch : Option String) (now : Nat) : CreateOutcome :=
  if !mkdirOk then
    -- mkdir raised before the directory existed; nothing to clean up
    { dirs := dirs, sessions := sessions
      res := .error "Failed to create session" }
  else
    let dirs1 := if dirs.contains sid then dirs else dirs ++ [sid]
    if !cloneOk then
      { dirs := dirs1.filter (fun d => !(d == sid)), sessions := sessions
        res := .error "Failed to create session" }
    else
      let effBranch : Option String :=
        if checkoutOk then some branch
        else if newBranchOk then some branch
        else activeBranch
      match effBranch with
      | none =>
        { dirs := dirs1.filter (fun d => !(d == sid)), sessions := sessions
          res := .error "Failed to create session" }
      | some b =>
        { dirs := dirs1
          sessions := insertSession sessions sid
            { session_id := sid, repo_url := repoUrl, branch := b
              workspace_path := sid, created_at := now }
          res := .ok sid }

/-- The dict returned by `teardown_session`: the success dict (with the
`archived`/`archive_path` keys), the early not-found dict, or the outer
`except` dict (`success=False`, no archive keys). -/
inductive TeardownRes where
  | ok (archived : Bool) (archive_path : Option String)
  | notFound (msg : String)
  | failed (msg : String)
deriving Repr, DecidableEq

/-- Full outcome of `teardown_session`: registry afterwards, returned
dict, and the archive directories created under the archive root by this
call. -/
structure TeardownOutcome where
  sessions : List (String × SessionInfo)
  res : TeardownRes
  archivesCreated : List String
deriving Repr, DecidableEq

/-- `SessionManager.teardown_session`.  `wsExists` models
`session.workspace_path.exists()`; `inspect2` models `git.Repo` +
`is_dirty()`/`untracked_files` giving `(dirty, untracked)`, with `none` =
the inspection raising (caught, warning printed); `copyOk` models
`shutil.copytree` succeeding (a failing copy still creates the target
directory before raising, and the exception is caught by the same inner
handler, leaving `archived=False`); `rmOk` models `shutil.rmtree`
(including its read-only retry) succeeding; `ts` is the timestamp string.
Container stop/remove is unobservable here (`DockerException` is
swallowed). -/
def teardown_session (sessions : List (String × SessionInfo)) (sid : String)
    (archive_changes : Bool) (wsExists : Bool)
    (inspect2 : Option (Bool × Bool)) (copyOk rmOk : Bool) (ts : String) :
    TeardownOutcome :=
  match lookupSession sessions sid with
  | none =>
    { sessions := sessions
      res := .notFound ("Session " ++ sid ++ " not found")
      archivesCreated := [] }
  | some _ =>
    let arch : Bool × Option String × List String :=
      if archive_changes && wsExists then
        match inspect2 with
        | some du =>
          if du.1 || du.2 then
            let nm := sid ++ "_" ++ ts
            if copyOk then (true, some nm, [nm]) else (false, none, [nm])
          else (false, none, [])
        | none => (false, none, [])
      else (false, none, [])
    if wsExists && !rmOk then
      { sessions := sessions, res := .failed "could not remove workspace"
        archivesCreated := arch.2.2 }
    else
      { sessions := eraseSession sessions sid
        res := .ok arch.1 arch.2.1
        archivesCreated := arch.2.2 }

/-- A single-quote character as a string (the quoting used by the secrets
file). -/
def sq : String := String.singleton (Char.ofNat 39)

/-- `value.replace(squote, squote + dquote + squote + dquote + squote)` --
the shell escaping applied to secret values. -/
def escSq (v : String) : String :=
  v.replace sq (sq ++ "\"" ++ sq ++ "\"" ++ sq)

/-- Python `pat in s` (substring test). -/
def strContains (s pat : String) : Bool := decide (pat.data <:+: s.data)

/-- The fixed environment prefix scanned by
`_prepare_secrets_for_session`. -/
def secretEnvPrefix : String := "OPENHANDS_SECRET_"

/-- `key.startswith(prefix)`, computed on the character lists. -/
def hasSecretKeyPrefix (k : String) : Bool :=
  decide (secretEnvPrefix.data <+: k.data)

/-- `key[17:]` — drop the 17 characters of the prefix. -/
def stripSecretName (k : String) : String := String.mk (k.data.drop 17)

/-- The `secrets` dict comprehension: keep prefixed keys, stripping the
17-character prefix (`key[17:]`).  Environment keys are distinct, so an
ordered list models the dict. -/
def collectSecrets (env : List (String × String)) : List (String × String) :=
  env.filterMap fun kv =>
    if hasSecretKeyPrefix kv.1 then some (stripSecretName kv.1, kv.2)
    else none

/-- Outcome of `_prepare_secrets_for_session`: return value, the lines
written to `.openhands_secrets` (one `f.write` per line), its chmod mode,
and the `.gitignore` content afterwards (`none` = still absent). -/
structure SecretsOutcome where
  result : Option String
  secretsFileLines : Option (List String)
  secretsFileMode : Option Nat
  gitignoreAfter : Option String
deriving Repr, DecidableEq

/-- `SessionManager._prepare_secrets_for_session`.  `env` is
`os.environ.items()`; `gitignore` is the current `.gitignore` content
(`none` = the file does not exist). -/
def prepare_secrets (env : List (String × String))
    (gitignore : Option String) : SecretsOutcome :=
  let secrets := collectSecrets env
  if secrets.isEmpty then
    { result := none, secretsFileLines := none, secretsFileMode := none
      gitignoreAfter := gitignore }
  else
    let lines := ["#!/bin/bash",
        "# Auto-generated secrets file - DO NOT COMMIT"] ++
      secrets.map (fun kv =>
        "export " ++ kv.1 ++ "=" ++ sq ++ escSq kv.2 ++ sq)
    let entry := ".openhands_secrets\n"
    let gi : String :=
      match gitignore with
      | some content =>
        if strContains content ".openhands_secrets" then content
        else content ++ entry
      | none => entry
    { result := some ".openhands_secrets"
      secretsFileLines := some lines
      secretsFileMode := some 0o600
      gitignoreAfter := some gi }

/-- Support for witnesses: a plain session record `s1`. -/
def sampleInfo : SessionInfo :=
  { session_id := "s1", repo_url := "u", branch := "main"
    workspace_path := "s1", created_at := 0 }

/-- Support for witnesses: session `s1` with one tracked task container. -/
def sampleInfoTracked : SessionInfo :=
  { session_id := "s1", repo_url := "u", branch := "main"
    workspace_path := "s1", created_at := 0
    coding_task_containers := [⟨"c1", "n1", 0, "running", "t"⟩] }

/-- Support for the C7 witness: a workspace root with a reconcilable
directory `u1`, a non-UUID directory `x`, and a non-directory entry
`u2`. -/
def wEntriesC7 : List DirEntry := [⟨"u1", true⟩, ⟨"x", true⟩, ⟨"u2", false⟩]

/-- Support for the C7 witness: names that parse as UUIDs. -/
def wIsUUIDC7 : String → Bool := fun n => n == "u1" || n == "u2"

/-- Support for the C7 witness: only `u1` inspects as a git repository
with a remote. -/
def wInspectC7 : String → Option (String × String) :=
  fun n => if n == "u1" then some ("main", "u") else none

/-- Support for the C7 witness: every entry exists on disk. -/
def wFsC7 : String → Bool := fun _ => true

/-- Support for the C7 witness: directory mtimes. -/
def wMtC7 : String → Nat := fun _ => 5

end OpenHandsMCP

namespace OpenHandsMCP

/-- C1: with a docker client available, `start_coding_session` first
garbage-collects non-live tracked containers, and when the number of
remaining live tracked tasks is at or above the cap the dispatch is
rejected with an error, no container is launched, and no `TaskHandle` is
appended (the tracked list is exactly the garbage-collected list). -/
theorem dispatch_rejected_at_cap (lookup : String → Option String)
    (maxTasks : Nat) (launch : Option String) (cname : String) (now : Nat)
    (task : String) (cs : List TaskHandle)
    (hcap : maxTasks ≤ (gcContainers lookup cs).length) :
    (start_coding_session true lookup maxTasks launch cname now task
        cs).isError = true ∧
    (start_coding_session true lookup maxTasks launch cname now task
        cs).container = none ∧
    (start_coding_session true lookup maxTasks launch cname now task
        cs).launched = false ∧
    (start_coding_session true lookup maxTasks launch cname now task
        cs).containers = gcContainers lookup cs := by
  simp [start_coding_session, hcap]

/-- C1 witness: after three successful dispatches with cap 3 and all
containers still running, the tracked list has length 3 (so the cap
hypothesis holds) and a fourth dispatch is rejected with no launch and no
new handle. -/
theorem dispatch_rejected_at_cap_witness :
    3 ≤ (gcContainers wLookupC1 wCs3C1).length ∧
    ((start_coding_session true wLookupC1 3 (some "c4") "c4" 0 "t"
        wCs3C1).isError = true ∧
     (start_coding_session true wLookupC1 3 (some "c4") "c4" 0 "t"
        wCs3C1).container = none ∧
     (start_coding_session true wLookupC1 3 (some "c4") "c4" 0 "t"
        wCs3C1).launched = false ∧
     (start_coding_session true wLookupC1 3 (some "c4") "c4" 0 "t"
        wCs3C1).containers = gcContainers wLookupC1 wCs3C1) :=
  ⟨by decide,
   dispatch_rejected_at_cap wLookupC1 3 (some "c4") "c4" 0 "t" wCs3C1
     (by decide)⟩

/-- Helper: an element of `zip cs (cs.map f)` pairs each `x` with `f x`. -/
theorem snd_eq_of_mem_zip_map {α β : Type} (f : α → β) (cs : List α)
    (p : α × β) (hp : p ∈ List.zip cs (cs.map f)) : p.2 = f p.1 := by
  induction cs with
  | nil => simp [List.zip] at hp
  | cons c rest ih =>
    simp only [List.map, List.zip_cons_cons, List.mem_cons] at hp
    rcases hp with h | h
    · subst h; rfl
    · exact ih h

/-- C8: for an existing session with an available runtime,
`get_coding_task_status` succeeds overall, returns exactly one entry per
tracked `TaskHandle` (in order), and a runtime lookup failure for one task
yields an `unknown` status with an attached error for that task only,
while a task whose lookup succeeds reports its live status with no error
attached. -/
theorem status_one_entry_per_task (query logsOf : String → Option String)
    (containers : List TaskHandle) :
    (get_coding_task_status true query logsOf containers).isError = false ∧
    (get_coding_task_status true query logsOf containers).tasks.length =
      containers.length ∧
    ∀ p ∈ List.zip containers
        (get_coding_task_status true query logsOf containers).tasks,
      p.2.id = p.1.id ∧
      (query p.1.id = none →
        p.2.status = "unknown" ∧ p.2.errorKey.isSome = true) ∧
      (∀ s, query p.1.id = some s → p.2.status = s ∧ p.2.errorKey = none) := by
  refine ⟨rfl, by simp [get_coding_task_status], ?_⟩
  intro p hp
  have h2 : p.2 = statusEntry query logsOf p.1 := by
    exact snd_eq_of_mem_zip_map (statusEntry query logsOf) containers p hp
  rw [h2]
  cases hq : query p.1.id with
  | some s => simp [statusEntry, hq]
  | none => simp [statusEntry, hq]

/-- C5: for an existing session with an available runtime,
`cleanup_coding_tasks` succeeds overall, returns exactly one per-container
result (failures collected per item, with `error` status, not raised),
clears the tracked list unconditionally, and a subsequent status call
reports an empty task list. -/
theorem cleanup_clears_and_reports (stopRemove : String → Option String)
    (containers : List TaskHandle) (query logsOf : String → Option String) :
    (cleanup_coding_tasks true stopRemove containers).isError = false ∧
    (cleanup_coding_tasks true stopRemove containers).results.length =
      containers.length ∧
    (cleanup_coding_tasks true stopRemove containers).containers = [] ∧
    (∀ p ∈ List.zip containers
        (cleanup_coding_tasks true stopRemove containers).results,
      p.2.id = p.1.id ∧
      (stopRemove p.1.id = none →
        p.2.status = "removed" ∧ p.2.errorKey = none) ∧
      (∀ e, stopRemove p.1.id = some e →
        p.2.status = "error" ∧ p.2.errorKey = some e)) ∧
    (get_coding_task_status true query logsOf
      (cleanup_coding_tasks true stopRemove containers).containers).tasks =
      [] := by
  refine ⟨rfl, by simp [cleanup_coding_tasks], rfl, ?_, rfl⟩
  intro p hp
  have h2 : p.2 = (fun c : TaskHandle =>
      match stopRemove c.id with
      | none => ({ id := c.id, status := "removed", errorKey := none } :
          CleanupEntry)
      | some e => { id := c.id, status := "error", errorKey := some e }) p.1 := by
    exact snd_eq_of_mem_zip_map _ containers p hp
  cases hq : stopRemove p.1.id with
  | none => simp [hq] at h2; simp [h2, hq]
  | some e => simp [hq] at h2; simp [h2, hq]

/-- Helper: inserting under a key that differs from the head's key skips
the head. -/
theorem insertSession_cons_ne (p : String × SessionInfo)
    (m : List (String × SessionInfo)) (k : String) (v : SessionInfo)
    (h : (p.1 == k) = false) :
    insertSession (p :: m) k v = p :: insertSession m k v := by
  have h' : p.1 ≠ k := by simpa using h
  cases hm : m.any (fun q => q.1 == k) with
  | true => simp [insertSession, List.any_cons, h, hm, h']
  | false => simp [insertSession, List.any_cons, h, hm]

/-- Helper: when the head's key matches, insert replaces the head and
rewrites the (nonexistent, by key uniqueness) further matches. -/
theorem insertSession_cons_eq (p : String × SessionInfo)
    (m : List (String × SessionInfo)) (k : String) (v : SessionInfo)
    (h : (p.1 == k) = true) :
    insertSession (p :: m) k v =
      (k, v) :: m.map (fun q => if q.1 == k then (k, v) else q) := by
  have h' : p.1 = k := by simpa using h
  simp [insertSession, List.any_cons, h, h']

/-- Helper: lookup skips a head entry with a different key. -/
theorem lookupSession_cons_ne (p : String × SessionInfo)
    (m : List (String × SessionInfo)) (k : String) (h : (p.1 == k) = false) :
    lookupSession (p :: m) k = lookupSession m k := by
  simp [lookupSession, List.find?_cons, h]

/-- Helper: lookup hits a head entry with the sought key. -/
theorem lookupSession_cons_eq (p : String × SessionInfo)
    (m : List (String × SessionInfo)) (k : String) (h : (p.1 == k) = true) :
    lookupSession (p :: m) k = some p.2 := by
  simp [lookupSession, List.find?_cons, h]

/-- Helper: the replace pass of an insert does not affect lookups under a
key other than the inserted one. -/
theorem lookupSession_mapReplace_ne (m : List (String × SessionInfo))
    (k : String) (v : SessionInfo) (k' : String) (h : (k == k') = false) :
    lookupSession (m.map (fun q => if q.1 == k then (k, v) else q)) k' =
      lookupSession m k' := by
  induction m with
  | nil => rfl
  | cons r m ih =>
    cases hr : (r.1 == k) with
    | true =>
      have hrk : r.1 = k := by simpa using hr
      have hr' : (r.1 == k') = false := by rw [hrk]; exact h
      rw [List.map_cons, if_pos hr]
      rw [lookupSession_cons_ne (k, v) _ k' h, lookupSession_cons_ne r m k' hr']
      exact ih
    | false =>
      have hrk : r.1 ≠ k := by simpa using hr
      rw [List.map_cons, if_neg (by simp [hr])]
      cases hq : (r.1 == k') with
      | true =>
        rw [lookupSession_cons_eq r _ k' hq, lookupSession_cons_eq r m k' hq]
      | false =>
        rw [lookupSession_cons_ne r _ k' hq, lookupSession_cons_ne r m k' hq]
        exact ih

/-- Helper: lookup under the inserted key finds the inserted value. -/
theorem lookupSession_insertSession (m : List (String × SessionInfo))
    (k : String) (v : SessionInfo) :
    lookupSession (insertSession m k v) k = some v := by
  induction m with
  | nil => simp [insertSession, lookupSession, List.find?]
  | cons p m ih =>
    cases hp : (p.1 == k) with
    | false =>
      rw [insertSession_cons_ne p m k v hp, lookupSession_cons_ne _ _ _ hp]
      exact ih
    | true =>
      rw [insertSession_cons_eq p m k v hp]
      exact lookupSession_cons_eq (k, v) _ k (by simp)

/-- Helper: lookup under a different key is unchanged by an insert. -/
theorem lookupSession_insertSession_ne (m : List (String × SessionInfo))
    (k : String) (v : SessionInfo) (k' : String) (h : (k == k') = false) :
    lookupSession (insertSession m k v) k' = lookupSession m k' := by
  induction m with
  | nil =>
    simp [insertSession, lookupSession, List.find?, h]
  | cons p m ih =>
    cases hp : (p.1 == k) with
    | false =>
      rw [insertSession_cons_ne p m k v hp]
      cases hq : (p.1 == k') with
      | true =>
        rw [lookupSession_cons_eq _ _ k' hq, lookupSession_cons_eq p m k' hq]
      | false =>
        rw [lookupSession_cons_ne _ _ _ hq, lookupSession_cons_ne p m k' hq]
        exact ih
    | true =>
      have hpk : p.1 = k := by simpa using hp
      have hq : (p.1 == k') = false := by rw [hpk]; exact h
      rw [insertSession_cons_eq p m k v hp]
      rw [lookupSession_cons_ne (k, v) _ k' h]
      rw [lookupSession_mapReplace_ne m k v k' h]
      rw [lookupSession_cons_ne p m k' hq]

/-- C2: whenever `create_session` propagates an error (an exception was
raised during provisioning), the partially created workspace directory
for the fresh session id has been deleted (the workspace root is exactly
as before) and no `SessionRecord` has been inserted in the registry. -/
theorem create_session_rolls_back (dirs : List String)
    (sessions : List (String × SessionInfo)) (sid repoUrl branch : String)
    (mkdirOk cloneOk checkoutOk newBranchOk : Bool)
    (activeBranch : Option String) (now : Nat)
    (hfresh : sid ∉ dirs) (e : String)
    (hfail : (create_session dirs sessions sid repoUrl branch mkdirOk cloneOk
      checkoutOk newBranchOk activeBranch now).res = .error e) :
    (create_session dirs sessions sid repoUrl branch mkdirOk cloneOk
      checkoutOk newBranchOk activeBranch now).dirs = dirs ∧
    (create_session dirs sessions sid repoUrl branch mkdirOk cloneOk
      checkoutOk newBranchOk activeBranch now).sessions = sessions := by
  have hcont : dirs.contains sid = false := by
    simpa using hfresh
  have hfilter : (dirs ++ [sid]).filter (fun d => !(d == sid)) = dirs := by
    rw [List.filter_append]
    have h1 : dirs.filter (fun d => !(d == sid)) = dirs := by
      rw [List.filter_eq_self]
      intro a ha
      simp only [Bool.not_eq_true']
      exact beq_false_of_ne (fun hEq => hfresh (hEq ▸ ha))
    have h2 : [sid].filter (fun d => !(d == sid)) = [] := by simp
    rw [h1, h2, List.append_nil]
  cases mkdirOk with
  | false => exact ⟨rfl, rfl⟩
  | true =>
    cases cloneOk with
    | false =>
      constructor
      · show (if dirs.contains sid then dirs else dirs ++ [sid]).filter
            (fun d => !(d == sid)) = dirs
        rw [hcont]; simpa using hfilter
      · rfl
    | true =>
      cases hco : checkoutOk with
      | true => simp [create_session, hco] at hfail
      | false =>
        cases hnb : newBranchOk with
        | true => simp [create_session, hco, hnb] at hfail
        | false =>
          cases hab : activeBranch with
          | some b => simp [create_session, hco, hnb, hab] at hfail
          | none =>
            constructor
            · show (if dirs.contains sid then dirs else dirs ++ [sid]).filter
                  (fun d => !(d == sid)) = dirs
              rw [hcont]; simpa using hfilter
            · rfl

/-- C2 witness: a failing clone with fresh id `s1` leaves the workspace
root and the registry unchanged. -/
theorem create_session_rolls_back_witness :
    (create_session ["w0"] [] "s1" "u" "main" true false true true
      (some "main") 0).dirs = ["w0"] ∧
    (create_session ["w0"] [] "s1" "u" "main" true false true true
      (some "main") 0).sessions = [] :=
  create_session_rolls_back ["w0"] [] "s1" "u" "main" true false true true
    (some "main") 0 (by decide) "Failed to create session" rfl

/-- C6: when the clone succeeds, `create_session` succeeds for every
combination of checkout outcomes — the requested branch being absent never
aborts creation — and the record inserted for the session carries the
effective branch: the requested branch when `checkout` or `checkout -b`
succeeded, else the clone's default branch. -/
theorem create_session_branch_fallback (dirs : List String)
    (sessions : List (String × SessionInfo)) (sid repoUrl branch : String)
    (checkoutOk newBranchOk : Bool) (d : String) (now : Nat) :
    (create_session dirs sessions sid repoUrl branch true true checkoutOk
      newBranchOk (some d) now).res = .ok sid ∧
    lookupSession (create_session dirs sessions sid repoUrl branch true true
      checkoutOk newBranchOk (some d) now).sessions sid =
      some { session_id := sid, repo_url := repoUrl
             branch := if checkoutOk then branch
               else if newBranchOk then branch else d
             workspace_path := sid, created_at := now } := by
  cases hco : checkoutOk with
  | true =>
    refine ⟨rfl, ?_⟩
    show lookupSession (insertSession sessions sid _) sid = _
    rw [lookupSession_insertSession]; simp
  | false =>
    cases hnb : newBranchOk with
    | true =>
      refine ⟨rfl, ?_⟩
      show lookupSession (insertSession sessions sid _) sid = _
      rw [lookupSession_insertSession]; simp
    | false =>
      refine ⟨rfl, ?_⟩
      show lookupSession (insertSession sessions sid _) sid = _
      rw [lookupSession_insertSession]; simp

/-- C6 witness: checkout and branch creation both failing for branch
`feature-x` still yields a session, recorded on the clone's default
branch `main`. -/
theorem create_session_branch_fallback_witness :
    (create_session [] [] "s1" "u" "feature-x" true true false false
      (some "main") 0).res = .ok "s1" ∧
    lookupSession (create_session [] [] "s1" "u" "feature-x" true true
      false false (some "main") 0).sessions "s1" =
      some { session_id := "s1", repo_url := "u", branch := "main"
             workspace_path := "s1", created_at := 0 } := by
  have h := create_session_branch_fallback [] [] "s1" "u" "feature-x"
    false false "main" 0
  simpa using h

/-- C4: for an existing session, a teardown call creates at most one
archive; it creates none (and returns `archived=False`,
`archive_path=None` when removal succeeds) if archiving is disabled or the
workspace is clean; and it creates exactly the one directory
`{session_id}_{timestamp}` when archiving is enabled and the workspace is
dirty or has untracked files. -/
theorem teardown_archive_spec (sessions : List (String × SessionInfo))
    (sid : String) (archive_changes wsExists : Bool)
    (inspect2 : Option (Bool × Bool)) (copyOk rmOk : Bool) (ts : String)
    (s : SessionInfo) (hs : lookupSession sessions sid = some s) :
    (teardown_session sessions sid archive_changes wsExists inspect2 copyOk
      rmOk ts).archivesCreated.length ≤ 1 ∧
    ((archive_changes = false ∨ inspect2 = some (false, false)) →
      (teardown_session sessions sid archive_changes wsExists inspect2 copyOk
        rmOk ts).archivesCreated = [] ∧
      (rmOk = true →
        (teardown_session sessions sid archive_changes wsExists inspect2
          copyOk rmOk ts).res = .ok false none)) ∧
    ((archive_changes = true ∧ wsExists = true ∧
        ∃ du : Bool × Bool, inspect2 = some du ∧ (du.1 || du.2) = true) →
      (teardown_session sessions sid archive_changes wsExists inspect2 copyOk
        rmOk ts).archivesCreated = [sid ++ "_" ++ ts]) := by
  refine ⟨?_, ?_, ?_⟩
  · rcases inspect2 with _ | ⟨d, u⟩
    · cases archive_changes <;> cases wsExists <;> cases copyOk <;>
        cases rmOk <;> simp [teardown_session, hs]
    · cases d <;> cases u <;> cases archive_changes <;> cases wsExists <;>
        cases copyOk <;> cases rmOk <;> simp [teardown_session, hs]
  · rintro (h | h)
    · subst h
      cases wsExists <;> cases rmOk <;> simp [teardown_session, hs]
    · subst h
      cases archive_changes <;> cases wsExists <;> cases rmOk <;>
        simp [teardown_session, hs]
  · rintro ⟨ha, hw, ⟨d, u⟩, hins, hdirty⟩
    subst ha; subst hw; subst hins
    cases copyOk <;> cases rmOk <;> simp_all [teardown_session, hs]

/-- C4 witness: tearing down session `s1` whose workspace has one
untracked file creates exactly the archive directory `s1_t0`. -/
theorem teardown_archive_spec_witness :
    (teardown_session [("s1", sampleInfo)] "s1" true true
      (some (false, true)) true true "t0").archivesCreated = ["s1_t0"] := by
  have h := teardown_archive_spec [("s1", sampleInfo)] "s1" true true
    (some (false, true)) true true "t0" sampleInfo (by decide)
  exact h.2.2 ⟨rfl, rfl, (false, true), rfl, rfl⟩

/-- C3: for an existing session, `execute_git_command` on a command whose
(possibly `git`-stripped) subcommand is outside the allow-list returns the
structured rejection (`success=False`, no `isError` key, the not-allowed
message) without invoking any git subcommand and without refreshing the
session's record. -/
theorem run_git_rejects_disallowed
    (gitExec : String → List String → GitRunOutcome) (fsIsDir : String → Bool)
    (inspect : String → Option (String × String)) (mtime : String → Nat)
    (sessions : List (String × SessionInfo)) (sid command : String)
    (s : SessionInfo) (hs : lookupSession sessions sid = some s) (c : String)
    (hc : (stripGitToken (pySplit command)).head? = some c)
    (hna : allowed_commands.contains c = false) :
    (execute_git_command true gitExec fsIsDir inspect mtime sessions sid
      command).invokedGit = false ∧
    (execute_git_command true gitExec fsIsDir inspect mtime sessions sid
      command).sessions = sessions ∧
    (execute_git_command true gitExec fsIsDir inspect mtime sessions sid
      command).reply = .ok (genericFailReply ("Command " ++ c ++
        " is not allowed in this context. Allowed commands: " ++
        String.intercalate ", " allowed_commands)) := by
  have hna2 : c ∉ allowed_commands := by simpa using hna
  simp [execute_git_command, hs, hc, hna2]

/-- C3 witness: `config --global user.name x` against session `s1` is
rejected without invoking git and without touching the registry. -/
theorem run_git_rejects_disallowed_witness :
    (execute_git_command true (fun _ _ => GitRunOutcome.ok "")
      (fun _ => true) (fun _ => some ("main", "u")) (fun _ => 0)
      [("s1", sampleInfo)] "s1" "config --global user.name x").invokedGit
      = false ∧
    (execute_git_command true (fun _ _ => GitRunOutcome.ok "")
      (fun _ => true) (fun _ => some ("main", "u")) (fun _ => 0)
      [("s1", sampleInfo)] "s1" "config --global user.name x").sessions =
      [("s1", sampleInfo)] ∧
    (execute_git_command true (fun _ _ => GitRunOutcome.ok "")
      (fun _ => true) (fun _ => some ("main", "u")) (fun _ => 0)
      [("s1", sampleInfo)] "s1" "config --global user.name x").reply =
      .ok (genericFailReply ("Command config is not allowed in this " ++
        "context. Allowed commands: " ++
        String.intercalate ", " allowed_commands)) := by
  have h := run_git_rejects_disallowed (fun _ _ => GitRunOutcome.ok "")
    (fun _ => true) (fun _ => some ("main", "u")) (fun _ => 0)
    [("s1", sampleInfo)] "s1" "config --global user.name x" sampleInfo
    (by decide) "config" (by decide) (by decide)
  simpa using h

/-- C10: after a successful `execute_git_command`, the session's registry
entry is the freshly reconstructed record: its tracked task-container
list is empty (every previously tracked `TaskHandle` is dropped) and its
creation timestamp is the workspace directory's mtime. -/
theorem run_git_success_refreshes
    (gitExec : String → List String → GitRunOutcome) (fsIsDir : String → Bool)
    (inspect : String → Option (String × String)) (mtime : String → Nat)
    (sessions : List (String × SessionInfo)) (sid command : String)
    (s : SessionInfo) (hs : lookupSession sessions sid = some s) (c : String)
    (hc : (stripGitToken (pySplit command)).head? = some c)
    (ha : allowed_commands.contains c = true) (out : String)
    (hexec : gitExec c (stripGitToken (pySplit command)).tail =
      GitRunOutcome.ok out)
    (hfs : fsIsDir sid = true) (bu : String × String)
    (hins : inspect sid = some bu) :
    (execute_git_command true gitExec fsIsDir inspect mtime sessions sid
      command).reply = .ok ⟨true, some false, out, none⟩ ∧
    ∃ r, lookupSession (execute_git_command true gitExec fsIsDir inspect
        mtime sessions sid command).sessions sid = some r ∧
      r.coding_task_containers = [] ∧ r.created_at = mtime sid := by
  have ha2 : c ∈ allowed_commands := by simpa using ha
  have hsess : (execute_git_command true gitExec fsIsDir inspect mtime
      sessions sid command).sessions =
      insertSession sessions sid (mkImportedInfo sid bu.1 bu.2 (mtime sid)) := by
    simp [execute_git_command, hs, hc, ha2, hexec, import_existing_session,
      hfs, hins]
  refine ⟨by simp [execute_git_command, hs, hc, ha2, hexec], ?_⟩
  refine ⟨mkImportedInfo sid bu.1 bu.2 (mtime sid), ?_, rfl, rfl⟩
  rw [hsess, lookupSession_insertSession]

/-- C10 witness: a successful `git status` on session `s1`, which had one
tracked container, leaves the registry entry with an empty tracked list
and `created_at` equal to the directory mtime 7. -/
theorem run_git_success_refreshes_witness :
    (execute_git_command true (fun _ _ => GitRunOutcome.ok "clean")
      (fun _ => true) (fun _ => some ("main", "u")) (fun _ => 7)
      [("s1", sampleInfoTracked)] "s1" "git status").reply =
      .ok ⟨true, some false, "clean", none⟩ ∧
    ∃ r, lookupSession (execute_git_command true
        (fun _ _ => GitRunOutcome.ok "clean") (fun _ => true)
        (fun _ => some ("main", "u")) (fun _ => 7)
        [("s1", sampleInfoTracked)] "s1" "git status").sessions "s1" =
        some r ∧ r.coding_task_containers = [] ∧ r.created_at = 7 :=
  run_git_success_refreshes (fun _ _ => GitRunOutcome.ok "clean")
    (fun _ => true) (fun _ => some ("main", "u")) (fun _ => 7)
    [("s1", sampleInfoTracked)] "s1" "git status" sampleInfoTracked
    (by decide) "status" (by decide) (by decide) "clean" rfl rfl
    ("main", "u") rfl

/-- C8 witness: with container `a` running and the lookup for `b`
raising, the status call still returns one entry per tracked task. -/
theorem status_one_entry_per_task_witness :
    (get_coding_task_status true wQueryC8 (fun _ => some "log")
      wCsC8).tasks.length = wCsC8.length :=
  (status_one_entry_per_task wQueryC8 (fun _ => some "log") wCsC8).2.1

/-- C5 witness: with the stop of container `b` failing, cleanup still
returns one result per tracked container and clears the tracked list. -/
theorem cleanup_clears_and_reports_witness :
    (cleanup_coding_tasks true wStopC5 wCsC8).containers = [] ∧
    (cleanup_coding_tasks true wStopC5 wCsC8).results.length =
      wCsC8.length :=
  ⟨(cleanup_clears_and_reports wStopC5 wCsC8 wQueryC8
      (fun _ => some "")).2.2.1,
   (cleanup_clears_and_reports wStopC5 wCsC8 wQueryC8
      (fun _ => some "")).2.1⟩

/-- C9: `_prepare_secrets_for_session` returns `None` and writes nothing
when no environment key carries the `OPENHANDS_SECRET_` prefix; when at
least one does, it writes the prefix-stripped names as shell-export
assignments to the workspace secrets file with mode `0o600`, and the
`.gitignore` afterwards contains the ignore rule — created if absent, and
left untouched when the rule is already present. -/
theorem prepare_secrets_spec (env : List (String × String))
    (gitignore : Option String) :
    ((∀ kv ∈ env, hasSecretKeyPrefix kv.1 = false) →
      prepare_secrets env gitignore =
        { result := none, secretsFileLines := none, secretsFileMode := none
          gitignoreAfter := gitignore }) ∧
    (∀ kv ∈ env, hasSecretKeyPrefix kv.1 = true →
      (prepare_secrets env gitignore).result = some ".openhands_secrets" ∧
      (prepare_secrets env gitignore).secretsFileMode = some 0o600 ∧
      ("export " ++ stripSecretName kv.1 ++ "=" ++ sq ++ escSq kv.2 ++ sq) ∈
        ((prepare_secrets env gitignore).secretsFileLines.getD []) ∧
      (∃ g, (prepare_secrets env gitignore).gitignoreAfter = some g ∧
        strContains g ".openhands_secrets" = true) ∧
      (∀ cnt, gitignore = some cnt →
        strContains cnt ".openhands_secrets" = true →
        (prepare_secrets env gitignore).gitignoreAfter = some cnt)) := by
  constructor
  · intro h
    have hempty : collectSecrets env = [] := by
      unfold collectSecrets
      rw [List.filterMap_eq_nil_iff]
      intro kv hkv
      simp [h kv hkv]
    simp [prepare_secrets, hempty]
  · intro kv hkv hpre
    have hmem : (stripSecretName kv.1, kv.2) ∈ collectSecrets env := by
      unfold collectSecrets
      rw [List.mem_filterMap]
      exact ⟨kv, hkv, by simp [hpre]⟩
    have hne : (collectSecrets env).isEmpty = false := by
      cases hc : collectSecrets env with
      | nil => rw [hc] at hmem; simp at hmem
      | cons a l => simp [List.isEmpty]
    refine ⟨by simp [prepare_secrets, hne], by simp [prepare_secrets, hne],
      ?_, ?_, ?_⟩
    · have hline : ("export " ++ stripSecretName kv.1 ++ "=" ++ sq ++
          escSq kv.2 ++ sq) ∈ (collectSecrets env).map (fun p =>
            "export " ++ p.1 ++ "=" ++ sq ++ escSq p.2 ++ sq) :=
        List.mem_map.mpr ⟨(stripSecretName kv.1, kv.2), hmem, rfl⟩
      simp only [prepare_secrets, hne, Bool.false_eq_true, if_false,
        Option.getD_some]
      exact List.mem_append.mpr (Or.inr hline)
    · have hpat : (".openhands_secrets" : String).data <:+:
          (".openhands_secrets\n" : String).data := by decide
      rcases gitignore with _ | cnt
      · refine ⟨".openhands_secrets\n", by simp [prepare_secrets, hne], ?_⟩
        exact decide_eq_true hpat
      · cases hctn : strContains cnt ".openhands_secrets" with
        | true =>
          exact ⟨cnt, by simp [prepare_secrets, hne, hctn], hctn⟩
        | false =>
          refine ⟨cnt ++ ".openhands_secrets\n",
            by simp [prepare_secrets, hne, hctn], ?_⟩
          apply decide_eq_true
          rw [String.data_append]
          exact hpat.trans (List.suffix_append cnt.data
            (".openhands_secrets\n" : String).data).isInfix
    · intro cnt hgi hctn
      subst hgi
      simp [prepare_secrets, hne, hctn]

/-- C9 witness: with exactly one prefixed variable and no `.gitignore`,
the secrets file gets mode `0o600`, holds the stripped export line, and
the created `.gitignore` contains the ignore rule. -/
theorem prepare_secrets_spec_witness :
    (prepare_secrets [("OPENHANDS_SECRET_GITHUB_TOKEN", "tok"), ("PATH", "p")]
      none).result = some ".openhands_secrets" ∧
    (prepare_secrets [("OPENHANDS_SECRET_GITHUB_TOKEN", "tok"), ("PATH", "p")]
      none).secretsFileMode = some 0o600 ∧
    ("export " ++ stripSecretName "OPENHANDS_SECRET_GITHUB_TOKEN" ++ "=" ++
        sq ++ escSq "tok" ++ sq) ∈
      ((prepare_secrets [("OPENHANDS_SECRET_GITHUB_TOKEN", "tok"),
        ("PATH", "p")] none).secretsFileLines.getD []) ∧
    (∃ g, (prepare_secrets [("OPENHANDS_SECRET_GITHUB_TOKEN", "tok"),
        ("PATH", "p")] none).gitignoreAfter = some g ∧
      strContains g ".openhands_secrets" = true) := by
  have h := (prepare_secrets_spec
    [("OPENHANDS_SECRET_GITHUB_TOKEN", "tok"), ("PATH", "p")] none).2
    ("OPENHANDS_SECRET_GITHUB_TOKEN", "tok") (by decide) (by decide)
  exact ⟨h.1, h.2.1, h.2.2.1, h.2.2.2.1⟩

/-- Helper: the replace pass of an insert keeps the key list unchanged. -/
theorem keys_mapReplace (m : List (String × SessionInfo)) (k : String)
    (v : SessionInfo) :
    (m.map (fun q => if q.1 == k then (k, v) else q)).map (fun p => p.1) =
      m.map (fun p => p.1) := by
  induction m with
  | nil => rfl
  | cons p m ih =>
    have hhead : (if p.1 == k then (k, v) else p).1 = p.1 := by
      cases hp : (p.1 == k) with
      | true =>
        have hpk : p.1 = k := by simpa using hp
        rw [if_pos rfl]
        exact hpk.symm
      | false => rw [if_neg (by simp)]
    simp only [List.map_cons, hhead, ih]

/-- Helper: inserting preserves key distinctness. -/
theorem keysNodup_insertSession (m : List (String × SessionInfo))
    (k : String) (v : SessionInfo) (h : keysNodup m) :
    keysNodup (insertSession m k v) := by
  cases ha : m.any (fun p => p.1 == k) with
  | true =>
    have heq : insertSession m k v =
        m.map (fun q => if q.1 == k then (k, v) else q) := by
      simp [insertSession, ha]
    unfold keysNodup at h ⊢
    rw [heq, keys_mapReplace]
    exact h
  | false =>
    have heq : insertSession m k v = m ++ [(k, v)] := by
      simp [insertSession, ha]
    have hnot : ∀ p ∈ m, (p.1 == k) = false := by
      intro p hp
      exact Bool.eq_false_iff.mpr fun hc =>
        (Bool.eq_false_iff.mp
          (by simpa using (List.any_eq_false.mp ha p hp))) hc
    have hnotmem : k ∉ m.map (fun p => p.1) := by
      intro hk
      obtain ⟨p, hp, hpk⟩ := List.mem_map.mp hk
      have := hnot p hp
      rw [hpk] at this
      simp at this
    unfold keysNodup at h ⊢
    rw [heq, List.map_append]
    simp only [List.map_cons, List.map_nil]
    exact List.Nodup.append h (List.nodup_singleton k)
      (List.disjoint_singleton.mpr hnotmem)

/-- Helper: with distinct keys, a successful lookup means exactly one
entry exists under that key. -/
theorem countKey_eq_one_of_lookup (m : List (String × SessionInfo))
    (k : String) (v : SessionInfo) (hnd : keysNodup m)
    (hl : lookupSession m k = some v) : countKey m k = 1 := by
  induction m with
  | nil => simp [lookupSession, List.find?] at hl
  | cons p m ih =>
    cases hp : (p.1 == k) with
    | true =>
      have hpk : p.1 = k := by simpa using hp
      have hfm : m.filter (fun q => q.1 == k) = [] := by
        rw [List.filter_eq_nil_iff]
        intro q hq
        have hq1 : q.1 ≠ p.1 := by
          intro hEq
          have : p.1 ∉ m.map (fun r => r.1) := (List.nodup_cons.mp hnd).1
          exact this (hEq ▸ List.mem_map_of_mem (fun r => r.1) hq)
        simp [hpk ▸ hq1]
      simp [countKey, List.filter_cons, hp, hfm]
    | false =>
      rw [lookupSession_cons_ne p m k hp] at hl
      have hnd2 : keysNodup m := (List.nodup_cons.mp hnd).2
      have := ih hnd2 hl
      simpa [countKey, List.filter_cons, hp] using this

/-- Helper: with distinct keys, re-inserting the value already present is
the identity. -/
theorem insertSession_eq_self (m : List (String × SessionInfo)) (k : String)
    (v : SessionInfo) (hnd : keysNodup m)
    (hl : lookupSession m k = some v) : insertSession m k v = m := by
  induction m with
  | nil => simp [lookupSession, List.find?] at hl
  | cons p m ih =>
    cases hp : (p.1 == k) with
    | true =>
      have hpk : p.1 = k := by simpa using hp
      have hv : p.2 = v := by
        rw [lookupSession_cons_eq p m k hp] at hl
        exact Option.some.inj hl
      rw [insertSession_cons_eq p m k v hp]
      have hmap : m.map (fun q => if q.1 == k then (k, v) else q) = m := by
        have hcongr : ∀ q ∈ m,
            (if q.1 == k then (k, v) else q) = id q := by
          intro q hq
          have hq1 : q.1 ≠ p.1 := by
            intro hEq
            have : p.1 ∉ m.map (fun r => r.1) := (List.nodup_cons.mp hnd).1
            exact this (hEq ▸ List.mem_map_of_mem (fun r => r.1) hq)
          rw [if_neg]
          · rfl
          · simp [hpk ▸ hq1]
        rw [List.map_congr_left hcongr, List.map_id]
      rw [hmap]
      have : (k, v) = p := by
        rw [← hpk, ← hv]
      rw [this]
    | false =>
      rw [insertSession_cons_ne p m k v hp]
      rw [lookupSession_cons_ne p m k hp] at hl
      rw [ih (List.nodup_cons.mp hnd).2 hl]

/-- Helper: when the directory exists and inspection succeeds, the import
is an insert of the freshly built record. -/
theorem import_eq_insert (fsIsDir : String → Bool)
    (inspect : String → Option (String × String)) (mtime : String → Nat)
    (m : List (String × SessionInfo)) (sid : String)
    (hfs : fsIsDir sid = true) (bu : String × String)
    (hins : inspect sid = some bu) :
    import_existing_session fsIsDir inspect mtime m sid =
      insertSession m sid (mkImportedInfo sid bu.1 bu.2 (mtime sid)) := by
  simp [import_existing_session, hfs, hins]

/-- Helper: a missing directory or failing inspection leaves the registry
untouched. -/
theorem import_eq_self_of_fail (fsIsDir : String → Bool)
    (inspect : String → Option (String × String)) (mtime : String → Nat)
    (m : List (String × SessionInfo)) (sid : String)
    (h : fsIsDir sid = false ∨ inspect sid = none) :
    import_existing_session fsIsDir inspect mtime m sid = m := by
  rcases h with h | h
  · simp [import_existing_session, h]
  · cases hfs : fsIsDir sid <;> simp [import_existing_session, hfs, h]

/-- Helper: importing one id leaves lookups under other keys unchanged. -/
theorem lookup_import_ne (fsIsDir : String → Bool)
    (inspect : String → Option (String × String)) (mtime : String → Nat)
    (m : List (String × SessionInfo)) (sid k : String)
    (h : (sid == k) = false) :
    lookupSession (import_existing_session fsIsDir inspect mtime m sid) k =
      lookupSession m k := by
  cases hfs : fsIsDir sid with
  | false => simp [import_existing_session, hfs]
  | true =>
    cases hins : inspect sid with
    | none => simp [import_existing_session, hfs, hins]
    | some bu =>
      rw [import_eq_insert fsIsDir inspect mtime m sid hfs bu hins]
      exact lookupSession_insertSession_ne m sid _ k h

/-- Helper: importing preserves key distinctness. -/
theorem keysNodup_import (fsIsDir : String → Bool)
    (inspect : String → Option (String × String)) (mtime : String → Nat)
    (m : List (String × SessionInfo)) (sid : String) (h : keysNodup m) :
    keysNodup (import_existing_session fsIsDir inspect mtime m sid) := by
  cases hfs : fsIsDir sid with
  | false => simpa [import_existing_session, hfs] using h
  | true =>
    cases hins : inspect sid with
    | none => simpa [import_existing_session, hfs, hins] using h
    | some bu =>
      rw [import_eq_insert fsIsDir inspect mtime m sid hfs bu hins]
      exact keysNodup_insertSession m sid _ h

/-- Helper: one unfolding step of the reconciliation loop. -/
theorem importAll_cons (fsIsDir : String → Bool)
    (inspect : String → Option (String × String)) (mtime : String → Nat)
    (isUUID : String → Bool) (e : DirEntry) (rest : List DirEntry)
    (m : List (String × SessionInfo)) :
    importAllExisting fsIsDir inspect mtime isUUID (e :: rest) m =
      importAllExisting fsIsDir inspect mtime isUUID rest
        (if e.isDir && isUUID e.name then
          import_existing_session fsIsDir inspect mtime m e.name
        else m) := rfl

/-- Helper: reconciliation leaves lookups under keys matching none of the
entry names unchanged. -/
theorem lookup_importAll_ne (fsIsDir : String → Bool)
    (inspect : String → Option (String × String)) (mtime : String → Nat)
    (isUUID : String → Bool) (k : String) :
    ∀ (entries : List DirEntry) (m : List (String × SessionInfo)),
      (∀ e ∈ entries, (e.name == k) = false) →
      lookupSession (importAllExisting fsIsDir inspect mtime isUUID entries
        m) k = lookupSession m k := by
  intro entries
  induction entries with
  | nil => intro m _; rfl
  | cons e rest ih =>
    intro m h
    rw [importAll_cons,
      ih _ (fun f hf => h f (List.mem_cons_of_mem e hf))]
    cases hg : e.isDir && isUUID e.name with
    | false => rw [if_neg (by simp)]
    | true =>
      rw [if_pos rfl]
      exact lookup_import_ne fsIsDir inspect mtime m e.name k
        (h e (List.mem_cons_self e rest))

/-- Helper: reconciliation preserves key distinctness. -/
theorem keysNodup_importAll (fsIsDir : String → Bool)
    (inspect : String → Option (String × String)) (mtime : String → Nat)
    (isUUID : String → Bool) :
    ∀ (entries : List DirEntry) (m : List (String × SessionInfo)),
      keysNodup m →
      keysNodup (importAllExisting fsIsDir inspect mtime isUUID entries m) := by
  intro entries
  induction entries with
  | nil => intro m h; exact h
  | cons e rest ih =>
    intro m h
    rw [importAll_cons]
    apply ih
    cases hg : e.isDir && isUUID e.name with
    | false => rw [if_neg (by simp)]; exact h
    | true =>
      rw [if_pos rfl]
      exact keysNodup_import fsIsDir inspect mtime m e.name h

/-- Helper: a reconcilable entry's name looks up to the freshly imported
record after the whole pass, for any starting registry. -/
theorem lookup_importAll_passes (fsIsDir : String → Bool)
    (inspect : String → Option (String × String)) (mtime : String → Nat)
    (isUUID : String → Bool) (e : DirEntry) (hdir : e.isDir = true)
    (huuid : isUUID e.name = true) (hfs : fsIsDir e.name = true)
    (bu : String × String) (hins : inspect e.name = some bu) :
    ∀ entries : List DirEntry, (entries.map DirEntry.name).Nodup →
      e ∈ entries → ∀ m : List (String × SessionInfo),
      lookupSession (importAllExisting fsIsDir inspect mtime isUUID entries
        m) e.name = some (mkImportedInfo e.name bu.1 bu.2 (mtime e.name)) := by
  intro entries
  induction entries with
  | nil => intro _ he; cases he
  | cons c rest ih =>
    intro hnd he m
    rw [importAll_cons]
    rcases List.mem_cons.mp he with rfl | hrest
    · have hg : (e.isDir && isUUID e.name) = true := by rw [hdir, huuid]; rfl
      rw [if_pos hg, import_eq_insert fsIsDir inspect mtime m e.name hfs bu
        hins]
      have hnames : ∀ f ∈ rest, (f.name == e.name) = false := by
        intro f hf
        have hni : e.name ∉ rest.map DirEntry.name := (List.nodup_cons.mp hnd).1
        have hne : f.name ≠ e.name := fun hEq =>
          hni (hEq ▸ List.mem_map_of_mem DirEntry.name hf)
        simpa using hne
      rw [lookup_importAll_ne fsIsDir inspect mtime isUUID e.name rest _
        hnames]
      exact lookupSession_insertSession m e.name _
    · exact ih (List.nodup_cons.mp hnd).2 hrest _

/-- Helper: an entry failing the directory/UUID/inspection tests
contributes nothing: its name's lookup is unchanged by the whole pass. -/
theorem lookup_importAll_fails (fsIsDir : String → Bool)
    (inspect : String → Option (String × String)) (mtime : String → Nat)
    (isUUID : String → Bool) (e : DirEntry)
    (hp : passesImport fsIsDir inspect isUUID e = false) :
    ∀ entries : List DirEntry, (entries.map DirEntry.name).Nodup →
      e ∈ entries → ∀ m : List (String × SessionInfo),
      lookupSession (importAllExisting fsIsDir inspect mtime isUUID entries
        m) e.name = lookupSession m e.name := by
  intro entries
  induction entries with
  | nil => intro _ he; cases he
  | cons c rest ih =>
    intro hnd he m
    rw [importAll_cons]
    rcases List.mem_cons.mp he with rfl | hrest
    · have hnames : ∀ f ∈ rest, (f.name == e.name) = false := by
        intro f hf
        have hni : e.name ∉ rest.map DirEntry.name := (List.nodup_cons.mp hnd).1
        have hne : f.name ≠ e.name := fun hEq =>
          hni (hEq ▸ List.mem_map_of_mem DirEntry.name hf)
        simpa using hne
      rw [lookup_importAll_ne fsIsDir inspect mtime isUUID e.name rest _
        hnames]
      cases hg : e.isDir && isUUID e.name with
      | false => rw [if_neg (by simp)]
      | true =>
        rw [if_pos rfl]
        have hfail : fsIsDir e.name = false ∨ inspect e.name = none := by
          by_cases hfs : fsIsDir e.name = true
          · right
            cases hins : inspect e.name with
            | none => rfl
            | some bu =>
              exfalso
              unfold passesImport at hp
              rw [hg, hfs, hins] at hp
              simp at hp
          · left; simpa using hfs
        rw [import_eq_self_of_fail fsIsDir inspect mtime m e.name hfail]
    · have hcne : (c.name == e.name) = false := by
        have hni : c.name ∉ rest.map DirEntry.name := (List.nodup_cons.mp hnd).1
        have hne : c.name ≠ e.name := fun hEq =>
          hni (hEq ▸ List.mem_map_of_mem DirEntry.name hrest)
        simpa using hne
      rw [ih (List.nodup_cons.mp hnd).2 hrest]
      cases hg : c.isDir && isUUID c.name with
      | false => rw [if_neg (by simp)]
      | true =>
        rw [if_pos rfl]
        exact lookup_import_ne fsIsDir inspect mtime m c.name e.name hcne

/-- Helper: a registry that already holds, for every reconcilable entry,
exactly the record reconciliation would build, is a fixed point of the
pass. -/
theorem importAll_eq_self (fsIsDir : String → Bool)
    (inspect : String → Option (String × String)) (mtime : String → Nat)
    (isUUID : String → Bool) :
    ∀ (entries : List DirEntry) (s : List (String × SessionInfo)),
      keysNodup s →
      (∀ e ∈ entries, e.isDir = true → isUUID e.name = true →
        fsIsDir e.name = true → ∀ bu, inspect e.name = some bu →
        lookupSession s e.name =
          some (mkImportedInfo e.name bu.1 bu.2 (mtime e.name))) →
      importAllExisting fsIsDir inspect mtime isUUID entries s = s := by
  intro entries
  induction entries with
  | nil => intro s _ _; rfl
  | cons e rest ih =>
    intro s hnd hfix
    rw [importAll_cons]
    have hstep : (if e.isDir && isUUID e.name then
        import_existing_session fsIsDir inspect mtime s e.name else s) = s := by
      cases hg : e.isDir && isUUID e.name with
      | false => rw [if_neg (by simp)]
      | true =>
        rw [if_pos rfl]
        obtain ⟨hd2, hu2⟩ := Bool.and_eq_true_iff.mp hg
        cases hfs : fsIsDir e.name with
        | false =>
          exact import_eq_self_of_fail fsIsDir inspect mtime s e.name
            (Or.inl hfs)
        | true =>
          cases hins : inspect e.name with
          | none =>
            exact import_eq_self_of_fail fsIsDir inspect mtime s e.name
              (Or.inr hins)
          | some bu =>
            rw [import_eq_insert fsIsDir inspect mtime s e.name hfs bu hins]
            exact insertSession_eq_self s e.name _ hnd
              (hfix e (List.mem_cons_self e rest) hd2 hu2 hfs bu hins)
    rw [hstep]
    exact ih s hnd (fun f hf => hfix f (List.mem_cons_of_mem e hf))

/-- C7: starting from the empty registry, reconciliation produces exactly
one record — keyed by the directory name and built from its git state and
mtime — for every directory entry that is a directory, parses as a UUID
and inspects successfully; entries failing any test yield no record; and
re-running the pass on the result is the identity. -/
theorem reconcile_all_spec (fsIsDir : String → Bool)
    (inspect : String → Option (String × String)) (mtime : String → Nat)
    (isUUID : String → Bool) (entries : List DirEntry)
    (hnd : (entries.map DirEntry.name).Nodup) :
    (∀ e ∈ entries, passesImport fsIsDir inspect isUUID e = true →
      ∃ bu, inspect e.name = some bu ∧
        lookupSession (importAllExisting fsIsDir inspect mtime isUUID
          entries []) e.name =
          some (mkImportedInfo e.name bu.1 bu.2 (mtime e.name)) ∧
        countKey (importAllExisting fsIsDir inspect mtime isUUID entries [])
          e.name = 1) ∧
    (∀ e ∈ entries, passesImport fsIsDir inspect isUUID e = false →
      lookupSession (importAllExisting fsIsDir inspect mtime isUUID entries
        []) e.name = none) ∧
    importAllExisting fsIsDir inspect mtime isUUID entries
        (importAllExisting fsIsDir inspect mtime isUUID entries []) =
      importAllExisting fsIsDir inspect mtime isUUID entries [] := by
  have hndAll : keysNodup
      (importAllExisting fsIsDir inspect mtime isUUID entries []) :=
    keysNodup_importAll fsIsDir inspect mtime isUUID entries []
      (by simp [keysNodup])
  refine ⟨?_, ?_, ?_⟩
  · intro e he hp
    unfold passesImport at hp
    obtain ⟨h3, hd4⟩ := Bool.and_eq_true_iff.mp hp
    obtain ⟨h2, hc3⟩ := Bool.and_eq_true_iff.mp h3
    obtain ⟨ha1, hb2⟩ := Bool.and_eq_true_iff.mp h2
    obtain ⟨bu, hbu⟩ := Option.isSome_iff_exists.mp hd4
    refine ⟨bu, hbu, ?_, ?_⟩
    · exact lookup_importAll_passes fsIsDir inspect mtime isUUID e ha1 hb2
        hc3 bu hbu entries hnd he []
    · exact countKey_eq_one_of_lookup _ e.name _ hndAll
        (lookup_importAll_passes fsIsDir inspect mtime isUUID e ha1 hb2 hc3
          bu hbu entries hnd he [])
  · intro e he hp
    rw [lookup_importAll_fails fsIsDir inspect mtime isUUID e hp entries hnd
      he []]
    rfl
  · apply importAll_eq_self fsIsDir inspect mtime isUUID entries _ hndAll
    intro e he hd2 hu2 hfs bu hins
    exact lookup_importAll_passes fsIsDir inspect mtime isUUID e hd2 hu2 hfs
      bu hins entries hnd he []

/-- C7 witness: reconciling a root with one valid UUID directory (`u1`),
one non-UUID directory and one non-directory yields the `u1` record, and
re-running the pass changes nothing. -/
theorem reconcile_all_spec_witness :
    lookupSession (importAllExisting wFsC7 wInspectC7 wMtC7 wIsUUIDC7
      wEntriesC7 []) "u1" = some (mkImportedInfo "u1" "main" "u" 5) ∧
    importAllExisting wFsC7 wInspectC7 wMtC7 wIsUUIDC7 wEntriesC7
        (importAllExisting wFsC7 wInspectC7 wMtC7 wIsUUIDC7 wEntriesC7 []) =
      importAllExisting wFsC7 wInspectC7 wMtC7 wIsUUIDC7 wEntriesC7 [] := by
  have h := reconcile_all_spec wFsC7 wInspectC7 wMtC7 wIsUUIDC7 wEntriesC7
    (by decide)
  refine ⟨?_, h.2.2⟩
  obtain ⟨bu, hbu, hlook, _⟩ := h.1 ⟨"u1", true⟩ (by decide) (by decide)
  have h2 : wInspectC7 "u1" = some ("main", "u") := rfl
  have hbueq : bu = ("main", "u") :=
    (Option.some.inj (h2.symm.trans hbu)).symm
  rw [hbueq] at hlook
  exact hlook

end OpenHandsMCP
